import Mathlib

/-!
Shallow embedding of the helper-function layer of the go-template
repository (`template.go`), together with theorems settling the frozen
claims about it.

Modelling conventions:

* Go dynamic values (`interface{}`) are modelled by the closed sum type
  `GoValue` covering the runtime types the helpers under verification
  dispatch on: untyped nil, a non-nil interface holding a nil pointer
  (a "typed nil"), booleans, `int`, `int64`, `float64`, `string`, and
  `json.Number` (a string-backed deferred-precision number).
* Go `float64` is idealized as an exact decimal-scaled integer
  (`GoFloat`, value `m * 10 ^ e`), with value equality `GoFloat.sameValue`
  and rational semantics `GoFloat.toRat`.  The claims under verification
  concern the structure of the coercion logic (which operand shapes are
  accepted, and the per-helper failure policy), not IEEE-754 rounding, so
  the idealization is harmless for them and keeps every definition
  kernel-executable.
* `strconv.ParseFloat` is modelled by `parseGoFloat` on ordinary decimal
  forms (optional sign, integer digits, optional fraction, optional
  decimal exponent).  The `Inf`/`NaN` spellings, hexadecimal floats and
  digit-separator underscores accepted by Go are not modelled; no claim
  exercises them.
* Functions that in Go return `(T, error)` are modelled as returning
  `T × Option GoError` (or `Except GoError T` where the Go value is
  meaningless on error), with `GoError` a string message.
-/

namespace GoTemplateSpec

/-- Error values are modelled by their message strings. -/
abbrev GoError := String

/-- Exact idealization of a Go `float64`: the value `m * 10 ^ e`.  The
representation is not normalized; equality of float values is
`GoFloat.sameValue` (or equality of `GoFloat.toRat`). -/
structure GoFloat where
  m : Int
  e : Int
deriving DecidableEq, Repr

/-- The float value zero. -/
def GoFloat.zero : GoFloat := ⟨0, 0⟩

/-- Float multiplication: exact on the decimal representation. -/
def GoFloat.mul (a b : GoFloat) : GoFloat := ⟨a.m * b.m, a.e + b.e⟩

/-- The integer `m * 10 ^ (e - e0)` for `e0 ≤ e`: the mantissa rescaled to
the common exponent `e0`. -/
def GoFloat.normAt (a : GoFloat) (e0 : Int) : Int := a.m * 10 ^ (a.e - e0).toNat

/-- Decidable value equality of two floats, by comparing mantissas at the
common exponent. -/
def GoFloat.sameValue (a b : GoFloat) : Bool :=
  let e0 := min a.e b.e
  a.normAt e0 == b.normAt e0

/-- Decidable `≥` on float values, by comparing mantissas at the common
exponent. -/
def GoFloat.geB (a b : GoFloat) : Bool :=
  let e0 := min a.e b.e
  b.normAt e0 ≤ a.normAt e0

/-- Rational semantics of a `GoFloat`. -/
def GoFloat.toRat (a : GoFloat) : ℚ := (a.m : ℚ) * (10 : ℚ) ^ a.e

/-- Closed model of the Go `interface{}` values the helpers dispatch on.
`VNil` is the untyped nil interface; `VNilPtr` is a non-nil interface
holding a nil pointer (a typed nil, e.g. a `(*string)(nil)` argument);
`VNumber` is `json.Number`, carrying its backing string. -/
inductive GoValue where
  | VNil : GoValue
  | VNilPtr : GoValue
  | VBool : Bool → GoValue
  | VInt : Int → GoValue
  | VInt64 : Int → GoValue
  | VFloat : GoFloat → GoValue
  | VString : String → GoValue
  | VNumber : String → GoValue
deriving DecidableEq, Repr

/-- Numeric value of a decimal digit character. -/
def digitVal (c : Char) : Nat := c.toNat - 48

/-- Value of a list of decimal digit characters, most significant first. -/
def natOfDigits (l : List Char) : Nat := l.foldl (fun a c => a * 10 + digitVal c) 0

/-- Splits an optional leading sign off a character list; `true` means
negative. -/
def splitSign : List Char → Bool × List Char
  | '+' :: r => (false, r)
  | '-' :: r => (true, r)
  | r => (false, r)

/-- Model of Go `strconv.ParseFloat` (64-bit) on ordinary decimal forms:
optional sign, digits, optional `.` and fraction digits (at least one
digit overall), optional `e`/`E` exponent with optional sign and at least
one digit, nothing left over.  The result is the exact value denoted. -/
def parseGoFloat (s : String) : Option GoFloat :=
  let (neg, cs) := splitSign s.data
  let intd := cs.takeWhile Char.isDigit
  let cs1 := cs.dropWhile Char.isDigit
  let fracd := match cs1 with
    | '.' :: r => r.takeWhile Char.isDigit
    | _ => []
  let cs2 := match cs1 with
    | '.' :: r => r.dropWhile Char.isDigit
    | r => r
  if intd.isEmpty && fracd.isEmpty then none
  else
    let mant : Int := Int.ofNat (natOfDigits (intd ++ fracd))
    let sm : Int := if neg then -mant else mant
    match cs2 with
    | [] => some ⟨sm, -(fracd.length : Int)⟩
    | e :: r =>
      if e = 'e' ∨ e = 'E' then
        let (eneg, r1) := splitSign r
        let ed := r1.takeWhile Char.isDigit
        let r2 := r1.dropWhile Char.isDigit
        if ed.isEmpty || !r2.isEmpty then none
        else
          let ev : Int := if eneg then -(natOfDigits ed : Int) else (natOfDigits ed : Int)
          some ⟨sm, -(fracd.length : Int) + ev⟩
      else none

/-- The numeric coercion both `multiply` and `ge` perform on an operand,
as a partial function: Go `int` casts, `float64` passes through, `string`
goes through `strconv.ParseFloat`, `json.Number` goes through its
`Float64` method (itself `ParseFloat` of the backing string); every other
runtime type is uncoercible. -/
def coerceFloat : GoValue → Option GoFloat
  | .VInt n => some ⟨n, 0⟩
  | .VFloat f => some f
  | .VString s => parseGoFloat s
  | .VNumber s => parseGoFloat s
  | _ => none

/-- One operand switch of the `multiply` helper (template.go:88-107).
`none` models Go's early `return 0` on an unparseable string or
`json.Number`; the `default` branch sets the operand to 0 and continues,
hence `some GoFloat.zero`. -/
def mulOperand : GoValue → Option GoFloat
  | .VInt n => some ⟨n, 0⟩
  | .VFloat f => some f
  | .VString s => parseGoFloat s
  | .VNumber s => parseGoFloat s
  | _ => some GoFloat.zero

/-- The `multiply` helper (template.go:85-129): coerce each operand with
the per-operand switch, return 0 as the whole product the moment a string
or `json.Number` fails to parse, and multiply otherwise.  Its Go signature
returns only `float64`, never an error. -/
def multiply (x y : GoValue) : GoFloat :=
  match mulOperand x with
  | none => GoFloat.zero
  | some xf =>
    match mulOperand y with
    | none => GoFloat.zero
    | some yf => xf.mul yf

/-- One operand switch of the `ge` helper (template.go:133-172): the same
coercion as `multiply`, but a parse failure or unsupported type is
propagated as an error. -/
def geOperand (side : String) (v : GoValue) : Except GoError GoFloat :=
  match v with
  | .VInt n => .ok ⟨n, 0⟩
  | .VFloat f => .ok f
  | .VString s =>
    match parseGoFloat s with
    | some f => .ok f
    | none => .error ("strconv.ParseFloat: parsing " ++ s ++ ": invalid syntax")
  | .VNumber s =>
    match parseGoFloat s with
    | some f => .ok f
    | none => .error ("strconv.ParseFloat: parsing " ++ s ++ ": invalid syntax")
  | _ => .error ("unsupported type found in " ++ side ++ "-value of comparison ge")

/-- The `ge` helper (template.go:130-174): coerce x, then y, propagating
the first failure as an error, otherwise compare. -/
def ge (x y : GoValue) : Except GoError Bool :=
  match geOperand "x" x with
  | .error e => .error e
  | .ok xf =>
    match geOperand "y" y with
    | .error e => .error e
    | .ok yf => .ok (xf.geB yf)

/-! Value semantics of `GoFloat`, relating the decidable comparisons to
rational arithmetic. -/

theorem GoFloat.toRat_zero : GoFloat.zero.toRat = 0 := by
  simp [GoFloat.toRat, GoFloat.zero]

theorem GoFloat.toRat_eq_scale (a : GoFloat) (e0 : Int) (h : e0 ≤ a.e) :
    a.toRat = ((a.normAt e0 : ℤ) : ℚ) * (10 : ℚ) ^ e0 := by
  unfold GoFloat.toRat GoFloat.normAt
  push_cast
  rw [mul_assoc]
  congr 1
  rw [← zpow_natCast (10 : ℚ) (a.e - e0).toNat, Int.toNat_of_nonneg (by omega),
    ← zpow_add₀ (by norm_num : (10 : ℚ) ≠ 0)]
  congr 1
  omega

theorem GoFloat.sameValue_iff (a b : GoFloat) :
    a.sameValue b = true ↔ a.toRat = b.toRat := by
  unfold GoFloat.sameValue
  rw [beq_iff_eq]
  constructor
  · intro h
    rw [a.toRat_eq_scale (min a.e b.e) (min_le_left _ _),
      b.toRat_eq_scale (min a.e b.e) (min_le_right _ _), h]
  · intro h
    rw [a.toRat_eq_scale (min a.e b.e) (min_le_left _ _),
      b.toRat_eq_scale (min a.e b.e) (min_le_right _ _)] at h
    have h10 : (10 : ℚ) ^ (min a.e b.e) ≠ 0 := zpow_ne_zero _ (by norm_num)
    exact_mod_cast mul_right_cancel₀ h10 h

theorem GoFloat.toRat_mul (a b : GoFloat) : (a.mul b).toRat = a.toRat * b.toRat := by
  unfold GoFloat.mul GoFloat.toRat
  push_cast
  rw [zpow_add₀ (by norm_num : (10 : ℚ) ≠ 0)]
  ring

theorem GoFloat.sameValue_refl (a : GoFloat) : a.sameValue a = true := by
  rw [GoFloat.sameValue_iff]

/-! Structural facts relating the two operand switches to the common
coercion `coerceFloat`. -/

theorem mulOperand_none {x : GoValue} (h : mulOperand x = none) : coerceFloat x = none := by
  cases x <;> simp_all [mulOperand, coerceFloat]

theorem mulOperand_some {x : GoValue} {f : GoFloat} (h : mulOperand x = some f) :
    (coerceFloat x).getD GoFloat.zero = f := by
  cases x <;> simp_all [mulOperand, coerceFloat]

theorem mulOperand_of_coerce {x : GoValue} {f : GoFloat} (h : coerceFloat x = some f) :
    mulOperand x = some f := by
  cases x <;> simp_all [mulOperand, coerceFloat]

theorem geOperand_err (side : String) {v : GoValue} (h : coerceFloat v = none) :
    ∃ e, geOperand side v = .error e := by
  cases v <;> simp_all [geOperand, coerceFloat]

theorem geOperand_ok (side : String) {v : GoValue} {f : GoFloat}
    (h : coerceFloat v = some f) : geOperand side v = .ok f := by
  cases v <;> simp_all [geOperand, coerceFloat]

/-- C2: the `multiply` helper is total (its Go signature has no error
result) and behaves as the product of the two coerced operands with every
uncoercible operand treated as 0, while the `ge` helper succeeds exactly
when both operands coerce, returning an explicit error the moment either
operand is an unparseable string, an unconvertible `json.Number`, or an
unsupported type; the concrete operand `"abc"` exhibits the two differing
per-helper failure policies. -/
theorem C2_multiply_defaults_ge_errors (x y : GoValue) :
    ((multiply x y).sameValue
        (GoFloat.mul ((coerceFloat x).getD GoFloat.zero) ((coerceFloat y).getD GoFloat.zero))
      = true)
    ∧ ((ge x y).isOk = ((coerceFloat x).isSome && (coerceFloat y).isSome))
    ∧ multiply (.VString "abc") (.VInt 1) = GoFloat.zero
    ∧ (ge (.VString "abc") (.VInt 1)).isOk = false := by
  refine ⟨?_, ?_, by decide, by decide⟩
  · cases hx : mulOperand x with
    | none =>
      rw [multiply, hx, mulOperand_none hx]
      rw [GoFloat.sameValue_iff, GoFloat.toRat_mul]
      simp [GoFloat.toRat_zero]
    | some xf =>
      cases hy : mulOperand y with
      | none =>
        rw [multiply, hx, hy, mulOperand_none hy]
        rw [GoFloat.sameValue_iff, GoFloat.toRat_mul]
        simp [GoFloat.toRat_zero]
      | some yf =>
        rw [multiply, hx, hy, mulOperand_some hx, mulOperand_some hy]
        exact GoFloat.sameValue_refl _
  · cases hcx : coerceFloat x with
    | none =>
      obtain ⟨e, he⟩ := geOperand_err "x" hcx
      rw [ge, he]
      simp [Except.isOk, Except.toBool]
    | some xf =>
      rw [ge, geOperand_ok "x" hcx]
      cases hcy : coerceFloat y with
      | none =>
        obtain ⟨e, he⟩ := geOperand_err "y" hcy
        rw [he]
        simp [Except.isOk, Except.toBool]
      | some yf =>
        rw [geOperand_ok "y" hcy]
        simp [Except.isOk, Except.toBool]

/-- Closed instance of C2 at concrete operands, obtained from the
theorem itself. -/
theorem C2_multiply_defaults_ge_errors_witness :
    multiply (.VString "abc") (.VInt 1) = GoFloat.zero
    ∧ (ge (.VString "abc") (.VInt 1)).isOk = false :=
  ⟨(C2_multiply_defaults_ge_errors (.VString "abc") (.VInt 1)).2.2.1,
    (C2_multiply_defaults_ge_errors (.VString "abc") (.VInt 1)).2.2.2⟩

/-- `x` is one of the four supported numeric-like representations (native
int, float, numeric string, `json.Number`) whose coerced value equals the
logical value `f`. -/
def representsF (f : GoFloat) (x : GoValue) : Bool :=
  match coerceFloat x with
  | some g => f.sameValue g
  | none => false

/-- C3: `multiply` is representation-independent — any two supported
representations of the same logical numeric value give products of the
same float value against any fixed second operand `w`. -/
theorem C3_multiply_representation_independent (f : GoFloat) (x x' w : GoValue)
    (hx : representsF f x = true) (hx' : representsF f x' = true) :
    (multiply x w).sameValue (multiply x' w) = true := by
  unfold representsF at hx hx'
  rcases hg : coerceFloat x with _ | g
  · rw [hg] at hx; exact absurd hx (by simp)
  rcases hg' : coerceFloat x' with _ | g'
  · rw [hg'] at hx'; exact absurd hx' (by simp)
  rw [hg] at hx; rw [hg'] at hx'
  rw [GoFloat.sameValue_iff] at hx hx'
  rw [multiply, multiply, mulOperand_of_coerce hg, mulOperand_of_coerce hg']
  cases hw : mulOperand w with
  | none => exact GoFloat.sameValue_refl _
  | some wf =>
    rw [GoFloat.sameValue_iff, GoFloat.toRat_mul, GoFloat.toRat_mul, ← hx, ← hx']

/-- Closed instance of C3: the int, numeric-string, float and
`json.Number` representations of 5 agree when multiplied by 3. -/
theorem C3_multiply_representation_independent_witness :
    representsF ⟨5, 0⟩ (.VInt 5) = true
    ∧ representsF ⟨5, 0⟩ (.VString "5.0") = true
    ∧ representsF ⟨5, 0⟩ (.VFloat ⟨50, -1⟩) = true
    ∧ representsF ⟨5, 0⟩ (.VNumber "0.5e1") = true
    ∧ (multiply (.VInt 5) (.VInt 3)).sameValue (multiply (.VString "5.0") (.VInt 3)) = true
    ∧ (multiply (.VFloat ⟨50, -1⟩) (.VInt 3)).sameValue
        (multiply (.VNumber "0.5e1") (.VInt 3)) = true :=
  ⟨by decide, by decide, by decide, by decide,
    C3_multiply_representation_independent ⟨5, 0⟩ _ _ (.VInt 3) (by decide) (by decide),
    C3_multiply_representation_independent ⟨5, 0⟩ _ _ (.VInt 3) (by decide) (by decide)⟩

/-! The unsafe-render gate (template.go:610-656).  `TemplateFuncs` binds
`UNSAFE_render` to `disabledUnsafeRender`; `AllowUnsafeRender` rebinds it
on the root template to `unsafeRender` or back to `disabledUnsafeRender`
depending only on its boolean argument.  The delegated engine work inside
`unsafeRender` (cloning the root template, `ParseFiles` on the named file,
`ExecuteTemplate` with the file's base name) is abstracted as a
`renderFile` function supplied by the external template engine, which
succeeds exactly when the file holds a valid template that renders
without error. -/

/-- Which function the registry currently binds under the name
`UNSAFE_render`. -/
inductive UnsafeGate where
  | disabled : UnsafeGate
  | enabled : UnsafeGate
deriving DecidableEq, Repr

/-- Initial binding: `TemplateFuncs` maps `UNSAFE_render` to
`disabledUnsafeRender` (template.go:610). -/
def initialUnsafeGate : UnsafeGate := .disabled

/-- `AllowUnsafeRender` (template.go:646-656): rebinds `UNSAFE_render` to
the live implementation when passed `true` and to the disabled stub when
passed `false`, regardless of the previous binding. -/
def allowUnsafeRender : Bool → UnsafeGate
  | true => .enabled
  | false => .disabled

/-- `disabledUnsafeRender` (template.go:613-615): ignores both arguments
and fails with the fixed disabled-feature error. -/
def disabledUnsafeRender {D : Type} (filename : String) (data : D) :
    String × Option GoError :=
  ("", some "UNSAFE_render method is disabled")

/-- `unsafeRender` (template.go:617-638): delegates to the engine's
file-parse-and-execute pipeline (abstracted as `renderFile`) and
propagates its outcome. -/
def unsafeRender {D : Type} (renderFile : String → D → Except GoError String)
    (filename : String) (data : D) : String × Option GoError :=
  match renderFile filename data with
  | .error e => ("", some e)
  | .ok s => (s, none)

/-- Invoking the helper bound under `UNSAFE_render` in the given gate
state. -/
def invokeUnsafeRender {D : Type} (g : UnsafeGate)
    (renderFile : String → D → Except GoError String)
    (filename : String) (data : D) : String × Option GoError :=
  match g with
  | .disabled => disabledUnsafeRender filename data
  | .enabled => unsafeRender renderFile filename data

/-- C1: in the initial gate state every invocation of `UNSAFE_render`
fails with the fixed disabled-feature error whatever the filename and
data; after `AllowUnsafeRender(true)`, a filename whose file renders
successfully under the engine yields that rendering with no error; after
`AllowUnsafeRender(false)` the same invocation fails with the fixed error
again. -/
theorem C1_unsafe_render_gate {D : Type}
    (renderFile : String → D → Except GoError String)
    (filename : String) (data : D) (s : String) :
    invokeUnsafeRender initialUnsafeGate renderFile filename data
      = ("", some "UNSAFE_render method is disabled")
    ∧ (renderFile filename data = .ok s →
        invokeUnsafeRender (allowUnsafeRender true) renderFile filename data = (s, none))
    ∧ invokeUnsafeRender (allowUnsafeRender false) renderFile filename data
      = ("", some "UNSAFE_render method is disabled") := by
  refine ⟨rfl, ?_, rfl⟩
  intro h
  simp [invokeUnsafeRender, allowUnsafeRender, unsafeRender, h]

/-- Closed instance of C1 at a one-file engine: the gate blocks before
enabling, renders the file after enabling, and blocks again after
disabling. -/
theorem C1_unsafe_render_gate_witness :
    invokeUnsafeRender initialUnsafeGate
        (fun f (_ : Unit) => if f = "partial.tmpl" then .ok "rendered" else .error "open: no such file")
        "partial.tmpl" ()
      = ("", some "UNSAFE_render method is disabled")
    ∧ invokeUnsafeRender (allowUnsafeRender true)
        (fun f (_ : Unit) => if f = "partial.tmpl" then .ok "rendered" else .error "open: no such file")
        "partial.tmpl" ()
      = ("rendered", none)
    ∧ invokeUnsafeRender (allowUnsafeRender false)
        (fun f (_ : Unit) => if f = "partial.tmpl" then .ok "rendered" else .error "open: no such file")
        "partial.tmpl" ()
      = ("", some "UNSAFE_render method is disabled") := by
  have h := C1_unsafe_render_gate
    (fun f (_ : Unit) => if f = "partial.tmpl" then .ok "rendered" else .error "open: no such file")
    "partial.tmpl" () "rendered"
  exact ⟨h.1, h.2.1 (by simp), h.2.2⟩

/-! The `dict` helper (template.go:210-218): it walks the flat variadic
argument list and, at every odd index `i`, assigns
`dict[args[i-1]] = args[i]` into a Go map.  The Go map is modelled by the
list of key/value assignments performed, in loop order (`dictPairs`), with
lookup taking the latest assignment to the key (`dictLookup`), which is
exactly the net effect of successive Go map assignments. -/

/-- The key/value assignments `dict` performs, in order: consecutive
argument pairs; a trailing unmatched argument produces no assignment. -/
def dictPairs : List GoValue → List (GoValue × GoValue)
  | k :: v :: rest => (k, v) :: dictPairs rest
  | _ => []

/-- Lookup in the map built from an assignment list: the value of the
last assignment to the key, as in a Go map. -/
def dictLookup (m : List (GoValue × GoValue)) (k : GoValue) : Option GoValue :=
  (m.reverse.find? (fun p => p.1 == k)).map Prod.snd

theorem dictPairs_length : ∀ kvs : List GoValue, (dictPairs kvs).length = kvs.length / 2
  | [] => rfl
  | [_] => by simp [dictPairs]
  | _ :: _ :: rest => by
    have ih := dictPairs_length rest
    simp only [dictPairs, List.length_cons]
    omega

theorem dictPairs_get :
    ∀ (kvs : List GoValue) (i : Nat),
      (dictPairs kvs)[i]? = (kvs[2 * i]?).bind (fun k => (kvs[2 * i + 1]?).map (fun v => (k, v)))
  | [], i => by simp [dictPairs]
  | [k], i => by
    cases i with
    | zero => simp [dictPairs]
    | succ j =>
      have e1 : 2 * (j + 1) = 2 * j + 1 + 1 := by ring
      rw [e1]
      simp [dictPairs]
  | k :: v :: rest, i => by
    cases i with
    | zero => simp [dictPairs]
    | succ j =>
      have e1 : 2 * (j + 1) = 2 * j + 1 + 1 := by ring
      rw [e1]
      simpa [dictPairs] using dictPairs_get rest j

theorem dictLookup_append_last (m : List (GoValue × GoValue)) (k v : GoValue) :
    dictLookup (m ++ [(k, v)]) k = some v := by
  simp [dictLookup, List.reverse_append, List.find?]

theorem dictLookup_not_mem (m : List (GoValue × GoValue)) (k : GoValue)
    (h : ∀ p ∈ m, p.1 ≠ k) : dictLookup m k = none := by
  have hf : m.reverse.find? (fun p => p.1 == k) = none := by
    rw [List.find?_eq_none]
    intro x hx
    simp only [List.mem_reverse] at hx
    simpa using h x hx
  simp [dictLookup, hf]

/-- C6 counterexample: `dict("a", 1, "a")` has odd length with final
unmatched key `"a"`, yet `"a"` is not absent from the result — the map
still binds it (to 1, from the earlier complete pair). -/
theorem C6_dict_counterexample :
    (dictPairs [.VString "a", .VInt 1, .VString "a"]).length = 1
    ∧ dictLookup (dictPairs [.VString "a", .VInt 1, .VString "a"]) (.VString "a")
      = some (.VInt 1) := by
  decide

/-- C6 (amended): `dict` never fails; it binds each even-position argument
that has a following argument to that following value, in order; an
odd-length argument list's final unmatched argument contributes no
key/value pair (so that key is absent unless it also occurred as an
earlier complete pair's key); on duplicate keys the later pair's value
wins on lookup. -/
theorem C6_dict_pairs_last_wins (kvs : List GoValue) :
    (dictPairs kvs).length = kvs.length / 2
    ∧ (∀ i : Nat, (dictPairs kvs)[i]?
        = (kvs[2 * i]?).bind (fun k => (kvs[2 * i + 1]?).map (fun v => (k, v))))
    ∧ (∀ (m : List (GoValue × GoValue)) (k v : GoValue), dictLookup (m ++ [(k, v)]) k = some v)
    ∧ (∀ k : GoValue, (∀ p ∈ dictPairs kvs, p.1 ≠ k) → dictLookup (dictPairs kvs) k = none) :=
  ⟨dictPairs_length kvs, dictPairs_get kvs,
    fun m k v => dictLookup_append_last m k v,
    fun k h => dictLookup_not_mem (dictPairs kvs) k h⟩

/-- Closed instance of the amended C6: a trailing key that never occurred
as a complete pair's key is absent, and a duplicated key takes the later
value. -/
theorem C6_dict_pairs_last_wins_witness :
    dictLookup (dictPairs [.VString "a", .VInt 1, .VString "b"]) (.VString "b") = none
    ∧ dictLookup ([(.VString "a", .VInt 1)] ++ [(.VString "a", .VInt 2)]) (.VString "a")
      = some (.VInt 2) :=
  ⟨(C6_dict_pairs_last_wins [.VString "a", .VInt 1, .VString "b"]).2.2.2 (.VString "b")
      (by decide),
    (C6_dict_pairs_last_wins []).2.2.1 [(.VString "a", .VInt 1)] (.VString "a") (.VInt 2)⟩

/-! The `coalesce` helper (template.go:338-345): it returns the first
argument `v` with `v != nil` — the Go comparison of an interface value
against untyped nil, which is false for a non-nil interface holding a nil
pointer (a typed nil). -/

/-- The `coalesce` helper as implemented: first value that is not the
untyped nil interface. -/
def coalesce : List GoValue → GoValue
  | [] => .VNil
  | v :: rest => if v ≠ .VNil then v else coalesce rest

/-- The claim's version of `coalesce`, following the spec's words rather
than the source: first value that is neither nil nor a nil-valued
optional/pointer. -/
def coalesceSpecVersion : List GoValue → GoValue
  | [] => .VNil
  | v :: rest => if v ≠ .VNil ∧ v ≠ .VNilPtr then v else coalesceSpecVersion rest

/-- C7 counterexample: on `[typed-nil-pointer, 5]` the implementation
returns the typed nil pointer (its interface is non-nil), not the 5 the
claim's "neither nil nor a nil-valued optional/pointer" rule requires. -/
theorem C7_coalesce_counterexample :
    coalesce [.VNilPtr, .VInt 5] = .VNilPtr
    ∧ coalesceSpecVersion [.VNilPtr, .VInt 5] = .VInt 5
    ∧ GoValue.VNilPtr ≠ GoValue.VInt 5 := by
  decide

/-- C7 (amended): `coalesce` returns the first value that is not nil,
where only the untyped nil interface counts as nil — a non-nil interface
holding a nil pointer counts as present and is returned — and returns nil
when all of the values are nil. -/
theorem C7_coalesce_first_non_nil (values : List GoValue) :
    coalesce values = ((values.find? (fun v => v != .VNil)).getD .VNil)
    ∧ ((∀ v ∈ values, v = .VNil) → coalesce values = .VNil) := by
  induction values with
  | nil => simp [coalesce]
  | cons v rest ih =>
    constructor
    · by_cases h : v = GoValue.VNil
      · subst h
        simpa [coalesce, List.find?] using ih.1
      · have hb : (v != GoValue.VNil) = true := by simpa using h
        simp [coalesce, List.find?, h, hb]
    · intro hall
      have hv : v = GoValue.VNil := hall v (by simp)
      subst hv
      simp only [coalesce, ne_eq, not_true_eq_false, if_false]
      exact ih.2 (fun w hw => hall w (by simp [hw]))

/-- Closed instance of the amended C7: an all-nil list coalesces to nil,
and a typed nil pointer in front is returned as present. -/
theorem C7_coalesce_first_non_nil_witness :
    coalesce [.VNil, .VNil] = .VNil ∧ coalesce [.VNil, .VNilPtr, .VInt 5] = .VNilPtr :=
  ⟨(C7_coalesce_first_non_nil [.VNil, .VNil]).2 (by decide),
    (C7_coalesce_first_non_nil [.VNil, .VNilPtr, .VInt 5]).1⟩

/-! The `fingerprint` helper (template.go:190-196) and
`fingerprint_address` (template.go:197-209): join the arguments with
`"_"`, replace every character matching the regexp `[^\p{L}0-9]` (not a
Unicode letter and not an ASCII digit) with `"_"`, lowercase the result.
The Unicode letter category `\p{L}` is modelled by `isUnicodeLetterChar`
over the script ranges this repository's data exercises (ASCII and
Latin-1/Latin-extended letters, Greek, Cyrillic, kana, CJK unified
ideographs, Hangul); Go's Unicode-aware `strings.ToLower` is modelled on
the ASCII range, which covers every cased character in the claims. -/

/-- Model of the Unicode letter class `\p{L}` over the script ranges
exercised here. -/
def isUnicodeLetterChar (c : Char) : Bool :=
  let n := c.toNat
  (97 ≤ n && n ≤ 122) || (65 ≤ n && n ≤ 90)
    || (0xC0 ≤ n && n ≤ 0xD6) || (0xD8 ≤ n && n ≤ 0xF6) || (0xF8 ≤ n && n ≤ 0x2AF)
    || (0x370 ≤ n && n ≤ 0x3FF) || (0x400 ≤ n && n ≤ 0x4FF)
    || (0x3040 ≤ n && n ≤ 0x30FF) || (0x4E00 ≤ n && n ≤ 0x9FFF)
    || (0xAC00 ≤ n && n ≤ 0xD7A3)

/-- One character of the regexp replacement `[^\p{L}0-9]` → `"_"`. -/
def replaceNonAlnum (c : Char) : Char :=
  if isUnicodeLetterChar c || c.isDigit then c else '_'

/-- Model of `strings.ToLower` on one character (ASCII case mapping). -/
def goToLowerChar (c : Char) : Char :=
  if 65 ≤ c.toNat && c.toNat ≤ 90 then Char.ofNat (c.toNat + 32) else c

/-- Mapping a function over the characters of a string (avoiding the
byte-position bookkeeping of `String.map`, which the kernel cannot
evaluate). -/
def mapString (f : Char → Char) (s : String) : String := ⟨s.data.map f⟩

/-- Model of `strings.ToLower`. -/
def goToLower (s : String) : String := mapString goToLowerChar s

/-- The `fingerprint` helper: join with `"_"`, replace non-letter/non-digit
characters with `"_"`, lowercase. -/
def fingerprint (vars : List String) : String :=
  goToLower (mapString replaceNonAlnum (String.intercalate "_" vars))

/-- The `fingerprint_address` helper: asserts each of its five
`interface{}` arguments to a string (non-strings yield `""`), then applies
the same join/replace/lowercase pipeline. -/
def fingerprint_address (address city state zip plus4Code : GoValue) : String :=
  let toStr : GoValue → String := fun v =>
    match v with
    | .VString s => s
    | _ => ""
  goToLower (mapString replaceNonAlnum (String.intercalate "_"
    [toStr address, toStr city, toStr state, toStr zip, toStr plus4Code]))

/-- C8: `fingerprint` joins with `"_"`, turns every character that is
neither a Unicode letter nor an ASCII digit into `"_"`, and lowercases:
the repository's concrete address example and CJK example come out as
specified (CJK letters pass through unchanged, punctuation and spaces
become underscores), uppercase ASCII is lowercased, and every
non-letter/non-digit character maps to `"_"`. -/
theorem C8_fingerprint_join_replace_lower (c : Char) :
    fingerprint ["1234 adams st.", "city", "state", "12345", "1234"]
      = "1234_adams_st__city_state_12345_1234"
    ∧ fingerprint ["台江区", "福州", "福建", "350000", ""] = "台江区_福州_福建_350000_"
    ∧ fingerprint_address (.VString "1234 adams st.") (.VString "city") (.VString "state")
        (.VString "12345") (.VString "1234") = "1234_adams_st__city_state_12345_1234"
    ∧ fingerprint_address (.VString "台江区") (.VString "福州") (.VString "福建")
        (.VString "350000") (.VString "") = "台江区_福州_福建_350000_"
    ∧ fingerprint ["AbC", "1"] = "abc_1"
    ∧ (isUnicodeLetterChar c = false → c.isDigit = false → replaceNonAlnum c = '_') := by
  refine ⟨by decide, by decide, by decide, by decide, by decide, ?_⟩
  intro h1 h2
  simp [replaceNonAlnum, h1, h2]

/-- Closed instance of C8: the punctuation and space characters of the
address example are replaced by underscores. -/
theorem C8_fingerprint_join_replace_lower_witness :
    replaceNonAlnum '.' = '_' ∧ replaceNonAlnum ' ' = '_' :=
  ⟨(C8_fingerprint_join_replace_lower '.').2.2.2.2.2 (by decide) (by decide),
    (C8_fingerprint_join_replace_lower ' ').2.2.2.2.2 (by decide) (by decide)⟩

/-! The `left` and `right` helpers (template.go:528-539).  Go strings are
byte sequences: `len(str)` counts bytes and `str[:n]` / `str[len-n:]`
slice bytes, so the helpers are modelled on the list of bytes.  The count
is a Go `int`; when `n` is negative the slice expression panics with a
slice-bounds error (modelled as `none`), and a multi-byte UTF-8 character
can be split. -/

/-- The `left` helper: the whole string when `len(str) <= n`, otherwise
the byte slice `str[:n]`, which panics (`none`) for negative `n`. -/
def left (str : List Nat) (n : Int) : Option (List Nat) :=
  if (str.length : Int) ≤ n then some str
  else if n < 0 then none
  else some (str.take n.toNat)

/-- The `right` helper: the whole string when `len(str) <= n`, otherwise
the byte slice `str[len(str)-n:]`, which panics (`none`) for negative
`n`. -/
def right (str : List Nat) (n : Int) : Option (List Nat) :=
  if (str.length : Int) ≤ n then some str
  else if n < 0 then none
  else some (str.drop (str.length - n.toNat))

/-- C9 counterexample: with a negative count the helpers panic rather
than never failing, and on the two-byte UTF-8 string `"é"`
(bytes `[195, 169]`) `left _ 1` returns the first byte alone — not the
first character, which would be both bytes. -/
theorem C9_left_right_counterexample :
    left [97, 98, 99] (-1) = none
    ∧ right [97, 98, 99] (-1) = none
    ∧ left [195, 169] 1 = some [195]
    ∧ some [195] ≠ some [195, 169] := by
  decide

/-- C9 (amended): for every byte string and every count `n ≥ 0`, `left`
returns the first `n` bytes and `right` the last `n` bytes, the whole
string when it has at most `n` bytes, and neither helper fails; a
negative `n` makes both panic with a slice-bounds error. -/
theorem C9_left_right_bytes (str : List Nat) (n : Int) :
    (0 ≤ n → left str n = some (str.take n.toNat)
      ∧ right str n = some (str.drop (str.length - n.toNat)))
    ∧ ((str.length : Int) ≤ n → left str n = some str ∧ right str n = some str)
    ∧ (n < 0 → left str n = none ∧ right str n = none) := by
  refine ⟨fun hn => ⟨?_, ?_⟩, fun hlen => ⟨?_, ?_⟩, fun hneg => ⟨?_, ?_⟩⟩
  · unfold left
    split
    · rename_i hle
      have : str.length ≤ n.toNat := by omega
      rw [List.take_of_length_le this]
    · rw [if_neg (by omega)]
  · unfold right
    split
    · rename_i hle
      have : str.length - n.toNat = 0 := by omega
      rw [this, List.drop_zero]
    · rw [if_neg (by omega)]
  · unfold left
    rw [if_pos hlen]
  · unfold right
    rw [if_pos hlen]
  · unfold left
    rw [if_neg (by omega), if_pos hneg]
  · unfold right
    rw [if_neg (by omega), if_pos hneg]

/-- Closed instance of the amended C9, matching the repository's tests:
`left "2019" 2 = "20"` and `right "2019" 2 = "19"` (bytes of the ASCII
digits), and both panic at `-1`. -/
theorem C9_left_right_bytes_witness :
    left [50, 48, 49, 57] 2 = some [50, 48]
    ∧ right [50, 48, 49, 57] 2 = some [49, 57]
    ∧ left [50, 48, 49, 57] (-1) = none := by
  have h2 := C9_left_right_bytes [50, 48, 49, 57] 2
  have hm := C9_left_right_bytes [50, 48, 49, 57] (-1)
  refine ⟨?_, ?_, (hm.2.2 (by decide)).1⟩
  · have := (h2.1 (by decide)).1
    simpa using this
  · have := (h2.1 (by decide)).2
    simpa using this

/-! `Interpolate` (template.go:696-717): clone the root template, parse
the source text against the clone, execute with the data; each of the
three delegated engine steps returns `(text, err)` on failure and only the
final success returns the rendered buffer.  The engine steps (owned by the
external text/template engine) are parameters. -/

/-- `Interpolate`: the returned pair is `(rendered, none)` on success and
`(text, some err)` when cloning, parsing or execution fails. -/
def Interpolate {P0 P D : Type} (clone : Except GoError P0)
    (parse : P0 → String → Except GoError P)
    (exec : P → D → Except GoError String)
    (data : D) (text : String) : String × Option GoError :=
  match clone with
  | .error e => (text, some e)
  | .ok root =>
    match parse root text with
    | .error e => (text, some e)
    | .ok tmpl =>
      match exec tmpl data with
      | .error e => (text, some e)
      | .ok s => (s, none)

/-- C10: whenever `Interpolate` reports an error (clone, parse or
execution failure), the string it returns is exactly the original input
text, not empty or partial output. -/
theorem C10_interpolate_returns_input_on_error {P0 P D : Type}
    (clone : Except GoError P0) (parse : P0 → String → Except GoError P)
    (exec : P → D → Except GoError String) (data : D) (text : String) (e : GoError)
    (h : (Interpolate clone parse exec data text).2 = some e) :
    (Interpolate clone parse exec data text).1 = text := by
  cases hc : clone with
  | error e0 => simp [Interpolate, hc]
  | ok root =>
    cases hp : parse root text with
    | error e1 => simp [Interpolate, hc, hp]
    | ok tmpl =>
      cases hx : exec tmpl data with
      | error e2 => simp [Interpolate, hc, hp, hx]
      | ok s => simp [Interpolate, hc, hp, hx] at h

/-- Closed instance of C10 at a concrete failing engine: execution fails,
and the original source text comes back unchanged. -/
theorem C10_interpolate_returns_input_on_error_witness :
    (Interpolate (.ok ()) (fun _ _ => .ok ()) (fun (_ : Unit) (_ : Unit) => .error "boom")
      () "tpl src").1 = "tpl src" :=
  C10_interpolate_returns_input_on_error (.ok ()) (fun _ _ => .ok ())
    (fun _ _ => .error "boom") () "tpl src" "boom" rfl

/-! The template-level TTL cache (template.go:479-489).  The cache itself
is the external `go-ttlcache` collaborator, not part of this repository;
it is modelled from the spec (§4.2): `SetEx(key, value, ttl)` stores the
value overwriting any existing entry for the key, visible until
`now + ttl`; `Get(key)` misses if the key is absent or expired.  Time is
an explicit integer parameter (in the duration's base units,
nanoseconds). -/

/-- One live cache entry. -/
structure CacheEntry where
  key : String
  value : GoValue
  expiresAt : Int
deriving DecidableEq, Repr

/-- The cache state: the list of entries, most recent first, with at most
one entry per key. -/
abbrev TTLCacheState := List CacheEntry

/-- Modelled from the spec: `TTLCache.SetEx` of the external `go-ttlcache`
collaborator — stores the value under the key, overwriting any existing
entry, visible until `now + ttl`. -/
def setEx (now : Int) (st : TTLCacheState) (key : String) (value : GoValue)
    (ttl : Int) : TTLCacheState :=
  ⟨key, value, now + ttl⟩ :: st.filter (fun en => en.key != key)

/-- Modelled from the spec: `TTLCache.Get` of the external `go-ttlcache`
collaborator — the stored value, unless the key is absent or its expiry
time has passed. -/
def ttlGet (now : Int) (st : TTLCacheState) (key : String) : Option GoValue :=
  match st.find? (fun en => en.key == key) with
  | some en => if now ≤ en.expiresAt then some en.value else none
  | none => none

/-- Truncation of a float to an integer, as Go's `int64(f)` conversion
(toward zero). -/
def GoFloat.truncInt (a : GoFloat) : Int :=
  if 0 ≤ a.e then a.m * 10 ^ a.e.toNat else a.m.tdiv (10 ^ (-a.e).toNat)

/-- Nanosecond multiplier of a duration unit suffix. -/
def durationUnit : List Char → Option Int
  | ['n', 's'] => some 1
  | ['u', 's'] => some 1000
  | ['m', 's'] => some 1000000
  | ['s'] => some 1000000000
  | ['m'] => some 60000000000
  | ['h'] => some 3600000000000
  | ['d'] => some 86400000000000
  | ['w'] => some 604800000000000
  | _ => none

/-- Modelled from the spec: the duration-expression string form accepted
by `go-timeutils`' approximate-duration parsing (external collaborator) —
an optional sign, digits, and a unit suffix. -/
def parseDurationExpr (s : String) : Option Int :=
  let (neg, cs) := splitSign s.data
  let ds := cs.takeWhile Char.isDigit
  let rest := cs.dropWhile Char.isDigit
  if ds.isEmpty then none
  else
    match durationUnit rest with
    | none => none
    | some mult =>
      let v : Int := (natOfDigits ds : Int) * mult
      some (if neg then -v else v)

/-- Modelled from the spec: `timeutils.InterfaceToApproxBigDuration`
(external collaborator, §4.3 `toApproxBigDuration`) — numeric values
convert directly, strings parse as approximate-duration expressions,
anything else is unparseable. -/
def interfaceToApproxBigDuration : GoValue → Option Int
  | .VInt n => some n
  | .VInt64 n => some n
  | .VFloat f => some f.truncInt
  | .VString s => parseDurationExpr s
  | .VNumber s => parseDurationExpr s
  | _ => none

/-- The `cacheSet` helper (template.go:479-485): parse the duration
expression, returning the value together with the parse error when it is
unparseable, otherwise store the value with the parsed TTL and return it
with no error. -/
def cacheSet (now : Int) (st : TTLCacheState) (key : String)
    (value expire : GoValue) : (GoValue × Option GoError) × TTLCacheState :=
  match interfaceToApproxBigDuration expire with
  | none => ((value, some "time: invalid duration"), st)
  | some d => ((value, none), setEx now st key value d)

/-- The `cacheGet` helper (template.go:486-489): the cached value, or nil
on a miss; it has no error result. -/
def cacheGet (now : Int) (st : TTLCacheState) (key : String) : GoValue :=
  (ttlGet now st key).getD .VNil

/-- C4 counterexample: a negative duration (Go `int` −5, i.e. −5ns)
parses, so `cacheSet` reports no error, yet the stored entry is already
expired and the immediately following `cacheGet` on the same key returns
nil, not the stored value. -/
theorem C4_cache_counterexample :
    (cacheSet 0 [] "k" (.VInt 7) (.VInt (-5))).1.2 = none
    ∧ cacheGet 0 (cacheSet 0 [] "k" (.VInt 7) (.VInt (-5))).2 "k" = .VNil
    ∧ GoValue.VNil ≠ GoValue.VInt 7 := by
  decide

/-- C4 (amended): `cacheSet` always returns the given value unchanged as
its first result and errs exactly when the duration expression is
unparseable; when the duration parses to a nonnegative duration, an
immediately following `cacheGet` on the same key (no elapsed time)
returns that value; `cacheGet` at any time strictly past the stored
expiry returns nil; `cacheGet` has no error result for any key. -/
theorem C4_cache_set_get (now : Int) (st : TTLCacheState) (key : String)
    (value expire : GoValue) :
    (cacheSet now st key value expire).1.1 = value
    ∧ ((cacheSet now st key value expire).1.2 = none
        ↔ (interfaceToApproxBigDuration expire).isSome = true)
    ∧ (∀ d : Int, interfaceToApproxBigDuration expire = some d → 0 ≤ d →
        cacheGet now (cacheSet now st key value expire).2 key = value)
    ∧ (∀ d t : Int, interfaceToApproxBigDuration expire = some d → now + d < t →
        cacheGet t (cacheSet now st key value expire).2 key = .VNil) := by
  cases hd : interfaceToApproxBigDuration expire with
  | none =>
    refine ⟨by simp [cacheSet, hd], by simp [cacheSet, hd], ?_, ?_⟩
    · intro d hsome
      exact absurd hsome (by simp)
    · intro d t hsome
      exact absurd hsome (by simp)
  | some d0 =>
    refine ⟨by simp [cacheSet, hd], by simp [cacheSet, hd], ?_, ?_⟩
    · intro d hsome hnn
      injection hsome with hdd
      subst hdd
      simp [cacheSet, hd, cacheGet, ttlGet, setEx, List.find?, hnn]
    · intro d t hsome ht
      injection hsome with hdd
      subst hdd
      have hlt : ¬ t ≤ now + d0 := by omega
      simp [cacheSet, hd, cacheGet, ttlGet, setEx, List.find?, hlt]

/-- Closed instance of the amended C4, matching the repository's
`cacheSet "test" 5 "1m"` test: the value comes back unchanged with no
error, an immediate `cacheGet` returns it, and a `cacheGet` after the
minute has elapsed returns nil. -/
theorem C4_cache_set_get_witness :
    (cacheSet 0 [] "test" (.VInt 5) (.VString "1m")).1.1 = .VInt 5
    ∧ (cacheSet 0 [] "test" (.VInt 5) (.VString "1m")).1.2 = none
    ∧ cacheGet 0 (cacheSet 0 [] "test" (.VInt 5) (.VString "1m")).2 "test" = .VInt 5
    ∧ cacheGet 100000000000 (cacheSet 0 [] "test" (.VInt 5) (.VString "1m")).2 "test" = .VNil := by
  have h := C4_cache_set_get 0 [] "test" (.VInt 5) (.VString "1m")
  refine ⟨h.1, ?_, ?_, ?_⟩
  · exact h.2.1.mpr (by decide)
  · exact h.2.2.1 60000000000 (by decide) (by decide)
  · exact h.2.2.2 60000000000 100000000000 (by decide) (by decide)

/-! The unmarshalling/marshalling adapter (template.go:762-784).
`Template.UnmarshalJSON` decodes the JSON field as a string
(`json.Unmarshal` into a Go string) and parses the decoded source against
a clone of the root template.  JSON string decoding is modelled by
`jsonDecodeString` (standard escapes and `\uXXXX`, no surrogate pairing —
none of the repository's data needs it); encoding by `jsonEncodeString`
(escaping quote, backslash and control characters).  The engine parse
(root clone + `Parse`) is a parameter `pf`, so "same registry binding
policy" is: both directions of the round trip parse with the same
`pf`. -/

/-- Lowercase hexadecimal digit character of `n < 16`. -/
def hexDigitChar (n : Nat) : Char :=
  if n < 10 then Char.ofNat (48 + n) else Char.ofNat (87 + n)

/-- Value of a hexadecimal digit character. -/
def hexVal (c : Char) : Option Nat :=
  if 48 ≤ c.toNat ∧ c.toNat ≤ 57 then some (c.toNat - 48)
  else if 97 ≤ c.toNat ∧ c.toNat ≤ 102 then some (c.toNat - 87)
  else if 65 ≤ c.toNat ∧ c.toNat ≤ 70 then some (c.toNat - 55)
  else none

/-- JSON encoding of one character of a string body: quote and backslash
are escaped, control characters become `\u00XX`, everything else is
itself. -/
def encChar (c : Char) : List Char :=
  if c = '"' then ['\\', '"']
  else if c = '\\' then ['\\', '\\']
  else if c.toNat < 32 then
    ['\\', 'u', '0', '0', hexDigitChar (c.toNat / 16), hexDigitChar (c.toNat % 16)]
  else [c]

/-- JSON encoding of a string body, character by character. -/
def encodeChars : List Char → List Char
  | [] => []
  | c :: cs => encChar c ++ encodeChars cs

/-- A string value as a quoted JSON string. -/
def jsonEncodeString (s : String) : String := ⟨'"' :: (encodeChars s.data ++ ['"'])⟩

/-- Decoding of one standard JSON escape character (the character after
a backslash, other than `u`). -/
def decodeEsc (e : Char) : Option Char :=
  if e = '"' then some '"'
  else if e = '\\' then some '\\'
  else if e = '/' then some '/'
  else if e = 'n' then some (Char.ofNat 10)
  else if e = 't' then some (Char.ofNat 9)
  else if e = 'r' then some (Char.ofNat 13)
  else if e = 'b' then some (Char.ofNat 8)
  else if e = 'f' then some (Char.ofNat 12)
  else none

/-- Decoder for the body of a JSON string (after the opening quote):
consumes up to the closing quote, which must end the input, handling the
standard escapes and `\uXXXX`. -/
def decodeBody : List Char → Option (List Char)
  | [] => none
  | '"' :: cs => if cs.isEmpty then some [] else none
  | '\\' :: 'u' :: h1 :: h2 :: h3 :: h4 :: cs3 =>
    match hexVal h1, hexVal h2, hexVal h3, hexVal h4 with
    | some a, some b, some c2, some d =>
      (decodeBody cs3).map (List.cons (Char.ofNat (((a * 16 + b) * 16 + c2) * 16 + d)))
    | _, _, _, _ => none
  | '\\' :: e :: cs2 =>
    match decodeEsc e with
    | some c => (decodeBody cs2).map (List.cons c)
    | none => none
  | c :: cs => (decodeBody cs).map (List.cons c)

/-- Model of `json.Unmarshal` of a JSON document into a Go string: the
document must be exactly one quoted string. -/
def jsonDecodeString (s : String) : Option String :=
  match s.data with
  | '"' :: rest => (decodeBody rest).map (fun l => ⟨l⟩)
  | _ => none

theorem hexVal_hexDigitChar (n : Nat) (h : n < 16) : hexVal (hexDigitChar n) = some n := by
  interval_cases n <;> decide

theorem decodeBody_encChar (c : Char) (rest : List Char) :
    decodeBody (encChar c ++ rest) = (decodeBody rest).map (List.cons c) := by
  by_cases h1 : c = '"'
  · subst h1
    simp [encChar, decodeBody, decodeEsc]
  by_cases h2 : c = '\\'
  · subst h2
    simp [encChar, decodeBody, decodeEsc]
  by_cases h3 : c.toNat < 32
  · have hhi : c.toNat / 16 < 16 := by omega
    have hlo : c.toNat % 16 < 16 := by omega
    have h0 : hexVal '0' = some 0 := by decide
    have hc : c.toNat / 16 * 16 + c.toNat % 16 = c.toNat := by omega
    simp only [encChar, if_neg h1, if_neg h2, if_pos h3, List.cons_append, List.nil_append]
    simp [decodeBody, h0, hexVal_hexDigitChar _ hhi, hexVal_hexDigitChar _ hlo, hc,
      Char.ofNat_toNat]
  · simp only [encChar, if_neg h1, if_neg h2, if_neg h3, List.cons_append, List.nil_append]
    simp [decodeBody, h1, h2]

theorem decodeBody_encodeChars (l : List Char) :
    decodeBody (encodeChars l ++ ['"']) = some l := by
  induction l with
  | nil => rfl
  | cons c cs ih =>
    rw [encodeChars, List.append_assoc, decodeBody_encChar, ih]
    rfl

theorem jsonDecode_encode (s : String) : jsonDecodeString (jsonEncodeString s) = some s := by
  show (decodeBody (encodeChars s.data ++ ['"'])).map (fun l => (⟨l⟩ : String)) = some s
  rw [decodeBody_encodeChars]
  rfl

/-- The `Template` wrapper (template.go:762-765) over an engine parse
result of type `ET`, together with the source text it was parsed from
(the text the marshal side serializes). -/
structure GoTemplate (ET : Type) where
  src : String
  parsed : ET
deriving DecidableEq, Repr

/-- `Template.UnmarshalJSON` (template.go:768-784): `json.Unmarshal` the
field into a string, then parse it against a clone of the root template;
`pf` is the engine's clone-and-parse pipeline bound to the current
registry. -/
def unmarshalJSON {ET : Type} (pf : String → Option ET) (data : String) :
    Except GoError (GoTemplate ET) :=
  match jsonDecodeString data with
  | none => .error "json: cannot unmarshal into value of type string"
  | some src =>
    match pf src with
    | none => .error "template: parse failed"
    | some p => .ok ⟨src, p⟩

/-- Modelled from the spec: the marshal inverse of `Template.UnmarshalJSON`
(§4.5 — "serializes a Template back to its original source text as a
quoted JSON string").  No MarshalJSON appears under src/; this definition
follows the spec's words. -/
def marshalJSON {ET : Type} (t : GoTemplate ET) : String := jsonEncodeString t.src

/-- C5: for any Template obtained by a successful `UnmarshalJSON`,
marshalling reproduces the original source text byte-identically as a
quoted JSON string (decoding the output recovers exactly the source), and
unmarshalling that output with the same registry binding (the same engine
parse `pf`) yields the same Template — same source text, same parsed
representation. -/
theorem C5_template_json_round_trip {ET : Type} (pf : String → Option ET)
    (data : String) (t : GoTemplate ET) (h : unmarshalJSON pf data = .ok t) :
    jsonDecodeString (marshalJSON t) = some t.src
    ∧ unmarshalJSON pf (marshalJSON t) = .ok t := by
  rw [unmarshalJSON] at h
  cases hdec : jsonDecodeString data with
  | none =>
    rw [hdec] at h
    simp at h
  | some src =>
    rw [hdec] at h
    simp only [] at h
    cases hp : pf src with
    | none =>
      simp [hp] at h
    | some p =>
      simp only [hp] at h
      have ht : (⟨src, p⟩ : GoTemplate ET) = t := by
        cases h
        rfl
      subst ht
      refine ⟨jsonDecode_encode src, ?_⟩
      show unmarshalJSON pf (jsonEncodeString src) = .ok ⟨src, p⟩
      rw [unmarshalJSON, jsonDecode_encode src]
      simp [hp]

/-- Closed instance of C5 at the identity engine: unmarshalling the
two-character document `"x"` and marshalling back round-trips exactly. -/
theorem C5_template_json_round_trip_witness :
    unmarshalJSON (fun s : String => some s) "\"x\"" = .ok ⟨"x", "x"⟩
    ∧ jsonDecodeString (marshalJSON (⟨"x", "x"⟩ : GoTemplate String)) = some "x"
    ∧ unmarshalJSON (fun s : String => some s) (marshalJSON (⟨"x", "x"⟩ : GoTemplate String))
      = .ok ⟨"x", "x"⟩ := by
  have h0 : unmarshalJSON (fun s : String => some s) "\"x\"" = .ok ⟨"x", "x"⟩ := rfl
  have h := C5_template_json_round_trip (fun s : String => some s) "\"x\"" ⟨"x", "x"⟩ h0
  exact ⟨h0, h.1, h.2⟩

end GoTemplateSpec
